import Mathlib

/-!
# dadip2p_server: start-up wiring of the P2P cache node

A shallow embedding of `cmd/p2p/dadip2p_server.go`: the repeatable `-r` flag
(`arrayFlags`), the flag table registered by `init`, and the wiring performed
by `main` (log level, root/agent announcement, cache pool, host picker, file
system, own address, server, listener).

The package `pkg/p2p` that `main` wires together is not part of the sources at
hand.  Its constructors are embedded as records of the arguments `main` passes
to them; the one behaviour that is needed beyond that (the cache store's
`put`, with its eviction) is modelled from the design document and is marked
as such.
-/

namespace Dadip2p

/-! ## Command-line variables -/

/-- Go: `type arrayFlags []string`. -/
abbrev arrayFlags := List String

/-- Go: `func (i *arrayFlags) Set(value string) error`.  The receiver is
updated in place; here the new receiver is returned next to the error
(`none` is Go's `nil`). -/
def arrayFlags.Set (i : arrayFlags) (value : String) : arrayFlags × Option String :=
  (i ++ [value], none)

/-- Go: `func (i *arrayFlags) String() string`, `strings.Join(*i, " ")`. -/
def arrayFlags.String (i : arrayFlags) : String :=
  " ".intercalate i

/-- The package-level variables of the program (`var ( root ... detectaddr )`).
`port` and `prefetch` are Go `int`, `cachesize` and `maxentry` are `int64`. -/
structure Vars where
  root : arrayFlags
  port : Int
  prefetch : Int
  cachesize : Int
  maxentry : Int
  loglevel : String
  media : String
  nodeip : String
  detectaddr : String

/-- Range of a Go `int64`. -/
def inInt64 (x : Int) : Prop := -(2 : Int) ^ 63 ≤ x ∧ x < (2 : Int) ^ 63

/-- Range of a 32-bit signed integer. -/
def inInt32 (x : Int) : Prop := -(2 : Int) ^ 31 ≤ x ∧ x < (2 : Int) ^ 31

/-- Two's-complement wrap-around of a mathematical integer to `int64`. -/
def wrapInt64 (x : Int) : Int := (x + 2 ^ 63) % 2 ^ 64 - 2 ^ 63

/-- Product of two `int64` values as the machine computes it. -/
def mulInt64 (a b : Int) : Int := wrapInt64 (a * b)

/-- Go: `func init()`.  Every `flag.XxxVar(&v, name, default, usage)` stores
the default in `v`; `flag.Var(&root, ...)` leaves `root` at its zero value,
the empty slice. -/
def init : Vars where
  root := []
  nodeip := ""
  detectaddr := "8.8.8.8:80"
  port := 19145
  cachesize := 8 * 1024 * 1024 * 1024
  maxentry := 1 * 1024 * 1024 * 1024
  prefetch := 64
  loglevel := "info"
  media := "/tmp/cache"

/-- One occurrence of a flag on the command line, after the `flag` package has
converted its value to the type of the variable registered under that name. -/
inductive FlagArg where
  | r (value : String)
  | h (value : String)
  | d (value : String)
  | p (value : Int)
  | m (value : Int)
  | e (value : Int)
  | pre (value : Int)
  | l (value : String)
  | c (value : String)

/-- The effect of one flag occurrence: `flag.Parse` calls the `Set` method of
the registered value, which is `arrayFlags.Set` for `-r` and an overwrite of
the variable for every other flag. -/
def setFlag (v : Vars) : FlagArg → Vars
  | .r value => { v with root := (arrayFlags.Set v.root value).1 }
  | .h value => { v with nodeip := value }
  | .d value => { v with detectaddr := value }
  | .p value => { v with port := value }
  | .m value => { v with cachesize := value }
  | .e value => { v with maxentry := value }
  | .pre value => { v with prefetch := value }
  | .l value => { v with loglevel := value }
  | .c value => { v with media := value }

/-- Go: `flag.Parse()` after `init`: the occurrences are applied from left to
right to the registered defaults. -/
def Parse (args : List FlagArg) : Vars :=
  args.foldl setFlag init

/-! ## Log levels (`github.com/sirupsen/logrus`) -/

/-- The levels of logrus, from the most to the least severe. -/
inductive Level where
  | PanicLevel
  | FatalLevel
  | ErrorLevel
  | WarnLevel
  | InfoLevel
  | DebugLevel
  | TraceLevel
  deriving DecidableEq, Repr

/-- Go: `unicode.ToLower` on one rune.  Below `utf8.RuneSelf` it is the ASCII
rule; above, it is the Unicode case table, taken as the parameter `tbl`. -/
def toLowerRune (tbl : Char → Char) (c : Char) : Char :=
  if c.toNat < 128 then
    (if 65 ≤ c.toNat ∧ c.toNat ≤ 90 then Char.ofNat (c.toNat + 32) else c)
  else tbl c

/-- Go: `strings.ToLower`. -/
def ToLower (tbl : Char → Char) (s : String) : String :=
  String.mk (s.data.map (toLowerRune tbl))

/-- Go: `log.ParseLevel` of the library `github.com/sirupsen/logrus`: the
lower-cased name is looked up among the seven level names, `warning` being a
second name of `warn`; any other string is an error (whose text the program
never reads). -/
def ParseLevel (tbl : Char → Char) (lvl : String) : Except String Level :=
  let s := ToLower tbl lvl
  if s = "panic" then .ok .PanicLevel
  else if s = "fatal" then .ok .FatalLevel
  else if s = "error" then .ok .ErrorLevel
  else if s = "warn" ∨ s = "warning" then .ok .WarnLevel
  else if s = "info" then .ok .InfoLevel
  else if s = "debug" then .ok .DebugLevel
  else if s = "trace" then .ok .TraceLevel
  else .error ("not a valid logrus Level: " ++ lvl)

/-! ## `fmt.Sprintf` -/

/-- An operand of `fmt.Sprintf`: the program only passes strings and ints. -/
inductive Arg where
  | str (s : String)
  | int (n : Int)

/-- The digit loop of Go's integer formatting: while `u >= 10` the last digit
is put in front of the buffer and `u` is divided by ten; the remaining `u` is
the leading digit.  `fuel` bounds the number of rounds. -/
def fmtDigits : Nat → Nat → List Char → List Char
  | 0, _, buf => buf
  | fuel + 1, u, buf =>
    if 10 ≤ u then fmtDigits fuel (u / 10) (Char.ofNat (48 + u % 10) :: buf)
    else Char.ofNat (48 + u) :: buf

/-- Go: the verb `%d` on a signed integer: an optional minus sign and the
decimal digits of the magnitude. -/
def fmtInteger (n : Int) : List Char :=
  let u := n.natAbs
  let digits := fmtDigits (u + 1) u []
  if n < 0 then '-' :: digits else digits

/-- Go's name of an operand's type, as printed in the error forms. -/
def Arg.typeName : Arg → List Char
  | .str _ => "string".data
  | .int _ => "int".data

/-- Go: the verb `%v`, the default rendering of an operand. -/
def Arg.render : Arg → List Char
  | .str s => s.data
  | .int n => fmtInteger n

/-- Go: the `%!(EXTRA type=value, ...)` list of the operands left over. -/
def fmtExtra : List Arg → List Char
  | [] => []
  | [a] => a.typeName ++ '=' :: a.render
  | a :: rest => a.typeName ++ '=' :: a.render ++ ',' :: Char.ofNat 32 :: fmtExtra rest

/-- Go: one verb applied to one operand.  `%s` takes a string, `%d` an int and
`%v` either; every other pairing is printed in the bad-verb form
`%!verb(type=value)`.  Verbs other than `s`, `d` and `v` do not occur in the
program and are all given the bad-verb form. -/
def fmtVerb (verb : Char) (a : Arg) : List Char :=
  match a with
  | .str s =>
    if verb = 's' ∨ verb = 'v' then s.data
    else '%' :: '!' :: verb :: '(' :: (a.typeName ++ '=' :: a.render ++ [')'])
  | .int n =>
    if verb = 'd' ∨ verb = 'v' then fmtInteger n
    else '%' :: '!' :: verb :: '(' :: (a.typeName ++ '=' :: a.render ++ [')'])

/-- Go: the scanning loop of `fmt.Sprintf` over the format.  Flags, width and
precision are not used by any format of the program and are not modelled. -/
def sprintfLoop : List Char → List Arg → List Char
  | [], [] => []
  | [], a :: rest => "%!(EXTRA ".data ++ fmtExtra (a :: rest) ++ [')']
  | c :: fmt, args =>
    if c = '%' then
      match fmt, args with
      | [], _ => "%!(NOVERB)".data ++ sprintfLoop [] args
      | verb :: fmt, [] =>
        if verb = '%' then '%' :: sprintfLoop fmt []
        else '%' :: '!' :: verb :: ("(MISSING)".data ++ sprintfLoop fmt [])
      | verb :: fmt, a :: rest =>
        if verb = '%' then '%' :: sprintfLoop fmt (a :: rest)
        else fmtVerb verb a ++ sprintfLoop fmt rest
    else c :: sprintfLoop fmt args

/-- Go: `fmt.Sprintf(format, a...)`. -/
def Sprintf (format : String) (a : List Arg) : String :=
  String.mk (sprintfLoop format.data a)

/-! ## Package `pkg/p2p`: the cache store -/

/-- Go: `p2p.CacheConfig`; the declaration is in `pkg/p2p`, which is missing,
and the fields are those of the composite literal in `main`. -/
structure CacheConfig where
  MaxEntry : Int
  CacheSize : Int
  CacheMedia : String

/-- Modelled from the spec: the key of a cache entry, `(blobKey, blockIndex)`
(the declaration in `pkg/p2p` is missing). -/
structure BlockKey where
  blobKey : String
  blockIndex : Nat
  deriving DecidableEq

/-- Modelled from the spec: a cache entry `{key, bytes, sizeBytes,
lastAccessTime}` (the declaration in `pkg/p2p` is missing); `sizeBytes` is the
length of `bytes`. -/
structure CacheEntry where
  key : BlockKey
  bytes : List Nat
  lastAccessTime : Nat

/-- Modelled from the spec: `sizeBytes` of an entry. -/
def CacheEntry.sizeBytes (e : CacheEntry) : Nat := e.bytes.length

/-- Modelled from the spec: the cache store of `pkg/p2p`, which is missing:
its configuration, its entries and a logical clock for the recency
metadata. -/
structure CachePool where
  cfg : CacheConfig
  entries : List CacheEntry
  clock : Nat

/-- Modelled from the spec: the running total of bytes used,
`sum(sizeBytes over all entries)`. -/
def totalBytes (es : List CacheEntry) : Nat :=
  (es.map CacheEntry.sizeBytes).sum

/-- Modelled from the spec: the entry count, `count(entries)`. -/
def entryCount (es : List CacheEntry) : Nat := es.length

/-- Modelled from the spec: the admission check of `put`, "admitting would
exceed neither bound". -/
def fitsBounds (cfg : CacheConfig) (es : List CacheEntry) (size : Nat) : Bool :=
  decide ((totalBytes es + size : Int) ≤ cfg.CacheSize) &&
    decide ((entryCount es + 1 : Int) ≤ cfg.MaxEntry)

/-- Modelled from the spec: the least recent access time among the entries. -/
def oldestTime : List CacheEntry → Nat
  | [] => 0
  | [e] => e.lastAccessTime
  | e :: rest => min e.lastAccessTime (oldestTime rest)

/-- Modelled from the spec: eviction of one least-recently-used entry
(recency is the last access).  Among equally old entries the first in store
order goes; the spec leaves that tie-break open. -/
def evictLRU (es : List CacheEntry) : List CacheEntry :=
  es.eraseP (fun e => e.lastAccessTime == oldestTime es)

/-- Modelled from the spec: "evict least-recently-used entries first,
evicting multiple entries if necessary, until both bounds hold".  Eviction
only runs while the admission check fails; `fuel` bounds the rounds. -/
def evictLoop (cfg : CacheConfig) (size : Nat) : Nat → List CacheEntry → List CacheEntry
  | 0, es => es
  | fuel + 1, es =>
    if fitsBounds cfg es size then es
    else evictLoop cfg size fuel (evictLRU es)

/-- Modelled from the spec: the outcome of `put`, `success | error`.  The
taxonomy names `oversized-entry` for an entry larger than `CacheSize`; for
bounds that no eviction can meet it names no error, and `noCapacity` stands
for that rejection. -/
inductive PutResult where
  | success
  | oversizedEntry
  | noCapacity
  deriving DecidableEq, Repr

/-- Modelled from the spec: `put(key, bytes)` of the cache store, which is
missing.  An entry larger than `CacheSize` on its own is rejected and never
admitted.  Otherwise the entry stored under the same key, if any, is replaced
and least-recently-used entries are evicted until both bounds hold; "then"
the entry is admitted with the current time.  When the bounds do not hold even
with every other entry evicted, nothing is admitted and, eviction and
admission being one unit, the store is left as it was. -/
def CachePool.put (s : CachePool) (key : BlockKey) (bytes : List Nat) : CachePool × PutResult :=
  if s.cfg.CacheSize < (bytes.length : Int) then (s, .oversizedEntry)
  else
    let others := s.entries.filter (fun e => decide (e.key ≠ key))
    let kept := evictLoop s.cfg bytes.length others.length others
    if fitsBounds s.cfg kept bytes.length then
      ({ s with
          entries := kept ++ [{ key := key, bytes := bytes, lastAccessTime := s.clock }]
          clock := s.clock + 1 }, .success)
    else (s, .noCapacity)

/-- Modelled from the spec: `get(key)` of the cache store, which is missing:
the bytes on a hit, whose recency is refreshed, and `none` on a miss. -/
def CachePool.get (s : CachePool) (key : BlockKey) : CachePool × Option (List Nat) :=
  match s.entries.find? (fun e => decide (e.key = key)) with
  | none => (s, none)
  | some e =>
    ({ s with
        entries := s.entries.map
          (fun x => if x.key = key then { x with lastAccessTime := s.clock } else x)
        clock := s.clock + 1 }, some e.bytes)

/-- A sequence of `put` calls, each on the store the previous one left. -/
def runPuts (s : CachePool) (puts : List (BlockKey × List Nat)) : CachePool :=
  puts.foldl (fun st kb => (st.put kb.1 kb.2).1) s

/-- Modelled from the spec: `p2p.NewCachePool(cfg)`, which is missing.  The
store holds the configuration it is given; its state is "initialized at
startup from on-disk media" and "mutated only through the store's admit/evict
operations": the readable entries found on the media (`onDisk`; unreadable
ones are discarded) are put into an empty store one after the other. -/
def NewCachePool (cfg : CacheConfig) (onDisk : List (BlockKey × List Nat)) : CachePool :=
  runPuts { cfg := cfg, entries := [], clock := 0 } onDisk

/-! ## Package `pkg/p2p`: peer selector, file system, server -/

/-- Modelled from the spec: the peer selector of `pkg/p2p`, which is missing.
It "holds only immutable configuration", which is what its constructor is
given in `main`: the root list and the cache store. -/
structure HostPicker where
  rootList : List String
  cache : CachePool

/-- Modelled from the spec: `p2p.NewHostPicker(root, cache)`, which is
missing: the selector is configured with its two arguments. -/
def NewHostPicker (root : List String) (cache : CachePool) : HostPicker :=
  { rootList := root, cache := cache }

/-- Go: `p2p.FSConfig`; the declaration is in `pkg/p2p`, which is missing, and
the fields are those of the composite literal in `main`. -/
structure FSConfig where
  CachePool : CachePool
  HostPicker : HostPicker
  APIKey : String
  PrefetchWorkers : Int

/-- Modelled from the spec: the fetch orchestrator of `pkg/p2p`, which is
missing; it holds the configuration object it is constructed with. -/
structure P2PFS where
  cfg : FSConfig

/-- Modelled from the spec: `p2p.NewP2PFS(cfg)`, which is missing. -/
def NewP2PFS (cfg : FSConfig) : P2PFS := { cfg := cfg }

/-- Go: `p2p.ServerConfig`; the declaration is in `pkg/p2p`, which is missing,
and the fields are those of the composite literal in `main`. -/
structure ServerConfig where
  MyAddr : String
  Fs : P2PFS
  APIKey : String

/-- Modelled from the spec: the serving endpoint of `pkg/p2p`, which is
missing; it holds the configuration object it is constructed with. -/
structure P2PServer where
  cfg : ServerConfig

/-- Modelled from the spec: `p2p.NewP2PServer(cfg)`, which is missing. -/
def NewP2PServer (cfg : ServerConfig) : P2PServer := { cfg := cfg }

/-! ## `main` -/

/-- What the program reads from its surroundings. -/
structure Env where
  -- Go: `time.Now().Unix()` at start-up
  now : Int
  -- Go: `net.Dial("udp", addr)`: the error, or the IP of the connection's
  -- local address as `IP.String()` prints it
  dial : String → Except String String
  -- Go: `unicode.ToLower` above the ASCII range
  lowerTable : Char → Char
  -- the readable cache entries found under a media root at start-up
  onDisk : String → List (BlockKey × List Nat)

/-- Go: `func getOutbondIP() net.IP`, followed by the caller's `.String()`.
A failed dial ends the process through `log.Fatal(err)`, which is the
`error` outcome. -/
def getOutbondIP (env : Env) (detectaddr : String) : Except String String :=
  match env.dial detectaddr with
  | .error err => .error err
  | .ok localAddr => .ok localAddr

/-- What `main` has done when it reaches `http.ListenAndServe`, or when it has
been ended by `log.Fatal`. -/
structure Startup where
  -- the argument of `log.SetLevel`
  level : Level
  -- the calls of `log.Warnf` and `log.Info`, in order, with their level
  logged : List (Level × String)
  -- the argument of `rand.Seed`
  seed : Int
  -- the values returned by `NewCachePool`, `NewHostPicker` and `NewP2PFS`
  cache : CachePool
  hp : HostPicker
  fs : P2PFS
  -- the addresses handed to `net.Dial`, in order
  dialed : List String
  -- the server and the address given to `http.ListenAndServe`, or the error
  -- that `log.Fatal` reported
  serve : Except String (P2PServer × String)

/-- Go: `func main()`, on the variables `v` left by `flag.Parse()`. -/
def main (env : Env) (v : Vars) : Startup :=
  let parsed := ParseLevel env.lowerTable v.loglevel
  let level := match parsed with
    | .ok l => l
    | .error _ => Level.InfoLevel
  let warned := match parsed with
    | .ok _ => []
    | .error _ =>
      [(Level.WarnLevel, Sprintf "Log level argument %s not recognized" [.str v.loglevel])]
  let announced :=
    if v.root.length = 0 then (Level.InfoLevel, "P2P Root")
    else (Level.InfoLevel, "P2P Agent")
  let cache := NewCachePool
    { MaxEntry := v.maxentry, CacheSize := v.cachesize, CacheMedia := v.media }
    (env.onDisk v.media)
  let hp := NewHostPicker v.root cache
  let fs := NewP2PFS
    { CachePool := cache, HostPicker := hp, APIKey := "dadip2p", PrefetchWorkers := v.prefetch }
  let nodeip := if v.nodeip = "" then getOutbondIP env v.detectaddr else .ok v.nodeip
  { level := level
    logged := warned ++ [announced]
    seed := env.now
    cache := cache
    hp := hp
    fs := fs
    dialed := if v.nodeip = "" then [v.detectaddr] else []
    serve := match nodeip with
      | .error err => .error err
      | .ok ip =>
        .ok (NewP2PServer
              { MyAddr := Sprintf "http://%s:%d" [.str ip, .int v.port]
                Fs := fs
                APIKey := "dadip2p" },
             Sprintf ":%d" [.int v.port]) }

/-! ## Auxiliary definitions for the statements -/

/-- The `-r` value of a flag occurrence, if it is one. -/
def rootValue : FlagArg → Option String
  | .r value => some value
  | _ => none

/-- A host without network and with empty cache media: every dial fails. -/
def offlineEnv : Env :=
  { now := 0
    dial := fun _ => .error "network is unreachable"
    lowerTable := id
    onDisk := fun _ => [] }

/-- A host whose outbound interface has the address 192.168.1.7 and whose
cache media hold one block of three bytes. -/
def lanEnv : Env :=
  { now := 1700000000
    dial := fun _ => .ok "192.168.1.7"
    lowerTable := id
    onDisk := fun _ => [(⟨"sha256:old", 0⟩, [1, 2, 3])] }

/-! ## Theorems -/

theorem oldestTime_mem (es : List CacheEntry) (h : es ≠ []) :
    ∃ e ∈ es, e.lastAccessTime = oldestTime es := by
  induction es with
  | nil => exact absurd rfl h
  | cons a rest ih =>
    cases rest with
    | nil => exact ⟨a, by simp, rfl⟩
    | cons b rest' =>
      obtain ⟨e, he, hte⟩ := ih (by simp)
      by_cases hab : a.lastAccessTime ≤ oldestTime (b :: rest')
      · exact ⟨a, by simp, by simp [oldestTime, Nat.min_eq_left hab]⟩
      · refine ⟨e, List.mem_cons_of_mem _ he, ?_⟩
        rw [hte]
        simp only [oldestTime]
        rw [Nat.min_eq_right (by omega)]

theorem length_evictLRU (es : List CacheEntry) : (evictLRU es).length = es.length - 1 := by
  by_cases h : es = []
  · subst h
    rfl
  · obtain ⟨e, he, hte⟩ := oldestTime_mem es h
    exact List.length_eraseP_of_mem he (by simp [hte])

theorem evictLoop_done (cfg : CacheConfig) (size fuel : Nat) (es : List CacheEntry)
    (hfuel : es.length ≤ fuel) :
    fitsBounds cfg (evictLoop cfg size fuel es) size = true ∨ evictLoop cfg size fuel es = [] := by
  induction fuel generalizing es with
  | zero =>
    right
    have : es = [] := List.length_eq_zero.mp (Nat.le_zero.mp hfuel)
    simp [evictLoop, this]
  | succ k ih =>
    simp only [evictLoop]
    by_cases ha : fitsBounds cfg es size = true
    · left
      simp [ha]
    · rw [if_neg ha]
      apply ih
      rw [length_evictLRU]
      omega

theorem put_cfg (s : CachePool) (key : BlockKey) (bytes : List Nat) :
    (s.put key bytes).1.cfg = s.cfg := by
  unfold CachePool.put
  split
  · rfl
  · dsimp only
    split <;> rfl

/-- With room for at least one entry, `put` rejects nothing but an entry larger
than `CacheSize`: the eviction loop ends with both bounds met. -/
theorem put_succeeds (s : CachePool) (key : BlockKey) (bytes : List Nat)
    (hentry : 1 ≤ s.cfg.MaxEntry) (hsize : (bytes.length : Int) ≤ s.cfg.CacheSize) :
    (s.put key bytes).2 = PutResult.success := by
  have hd := evictLoop_done s.cfg bytes.length
    (s.entries.filter (fun e => decide (e.key ≠ key))).length
    (s.entries.filter (fun e => decide (e.key ≠ key))) (le_refl _)
  have hfit : fitsBounds s.cfg (evictLoop s.cfg bytes.length
      (s.entries.filter (fun e => decide (e.key ≠ key))).length
      (s.entries.filter (fun e => decide (e.key ≠ key)))) bytes.length = true := by
    rcases hd with h | h
    · exact h
    · rw [h]
      simp only [fitsBounds, totalBytes, entryCount, List.map_nil, List.sum_nil,
        List.length_nil, Bool.and_eq_true, decide_eq_true_eq]
      constructor
      · push_cast
        omega
      · push_cast
        omega
  unfold CachePool.put
  rw [if_neg (by omega)]
  dsimp only
  rw [if_pos hfit]

theorem runPuts_cfg (puts : List (BlockKey × List Nat)) (s : CachePool) :
    (runPuts s puts).cfg = s.cfg := by
  induction puts generalizing s with
  | nil => rfl
  | cons kb rest ih => exact (ih (s.put kb.1 kb.2).1).trans (put_cfg s kb.1 kb.2)

theorem NewCachePool_cfg (cfg : CacheConfig) (onDisk : List (BlockKey × List Nat)) :
    (NewCachePool cfg onDisk).cfg = cfg :=
  runPuts_cfg onDisk _

theorem main_cache_cfg (env : Env) (v : Vars) :
    (main env v).cache.cfg
      = { MaxEntry := v.maxentry, CacheSize := v.cachesize, CacheMedia := v.media } :=
  NewCachePool_cfg _ _

theorem foldl_setFlag_root (args : List FlagArg) (v : Vars) :
    (args.foldl setFlag v).root = v.root ++ args.filterMap rootValue := by
  induction args generalizing v with
  | nil => simp
  | cons a rest ih =>
    rw [List.foldl_cons, ih]
    cases a <;> simp [setFlag, rootValue, arrayFlags.Set, List.filterMap_cons]

theorem Parse_root (args : List FlagArg) : (Parse args).root = args.filterMap rootValue := by
  simp [Parse, foldl_setFlag_root, init]

/-- C1: whatever the variables hold after flag parsing, `main` builds the
cache store with `CacheSize` = `-m`, `MaxEntry` = `-e`, `CacheMedia` = `-c` and
the file system with `PrefetchWorkers` = `-pre`, each value unchanged; in
particular so for the values put there by the four flags. -/
theorem main_passes_bounds_through (env : Env) (v : Vars) (m e pre : Int) (c : String) :
    ((main env v).cache.cfg.CacheSize = v.cachesize ∧
      (main env v).cache.cfg.MaxEntry = v.maxentry ∧
      (main env v).cache.cfg.CacheMedia = v.media ∧
      (main env v).fs.cfg.PrefetchWorkers = v.prefetch ∧
      (main env v).fs.cfg.CachePool = (main env v).cache) ∧
    ((main env (Parse [.m m, .e e, .c c, .pre pre])).cache.cfg
        = { MaxEntry := e, CacheSize := m, CacheMedia := c } ∧
      (main env (Parse [.m m, .e e, .c c, .pre pre])).fs.cfg.PrefetchWorkers = pre) := by
  have hv := main_cache_cfg env v
  refine ⟨⟨?_, ?_, ?_, rfl, rfl⟩, ?_, rfl⟩
  · rw [hv]
  · rw [hv]
  · rw [hv]
  · exact main_cache_cfg env (Parse [.m m, .e e, .c c, .pre pre])

/-- C2: `main` announces "P2P Root" exactly when the root list is empty and
"P2P Agent" exactly when it has at least one element, and the announcement
is a function of the length of the root list alone. -/
theorem main_announces_by_root_length (env : Env) (v : Vars) :
    ((Level.InfoLevel, "P2P Root") ∈ (main env v).logged ↔ v.root = []) ∧
    ((Level.InfoLevel, "P2P Agent") ∈ (main env v).logged ↔ 1 ≤ v.root.length) ∧
    (main env v).logged.filter (fun x => decide (x.1 = Level.InfoLevel))
      = [(Level.InfoLevel, if v.root.length = 0 then "P2P Root" else "P2P Agent")] := by
  have hlog : (main env v).logged
      = (match ParseLevel env.lowerTable v.loglevel with
          | .ok _ => []
          | .error _ =>
            [(Level.WarnLevel, Sprintf "Log level argument %s not recognized" [.str v.loglevel])])
        ++ [(Level.InfoLevel, if v.root.length = 0 then "P2P Root" else "P2P Agent")] := by
    simp only [main]
    split <;> split <;> simp_all
  rw [hlog]
  cases hr : v.root with
  | nil => cases ParseLevel env.lowerTable v.loglevel <;> simp
  | cons a rest => cases ParseLevel env.lowerTable v.loglevel <;> simp

theorem digitChar_eq (d : Nat) (h : d < 10) : Nat.digitChar d = Char.ofNat (48 + d) := by
  interval_cases d <;> rfl

theorem fmtDigits_eq_toDigitsCore (fuel u : Nat) (buf : List Char) :
    fmtDigits fuel u buf = Nat.toDigitsCore 10 fuel u buf := by
  induction fuel generalizing u buf with
  | zero => rfl
  | succ k ih =>
    simp only [fmtDigits, Nat.toDigitsCore]
    by_cases hu : 10 ≤ u
    · have hq : u / 10 ≠ 0 := by omega
      rw [if_pos hu, if_neg hq, ih, digitChar_eq _ (Nat.mod_lt _ (by decide))]
    · have hq : u / 10 = 0 := by omega
      have hm : u % 10 = u := by omega
      rw [if_neg hu, if_pos hq, hm, digitChar_eq _ (by omega)]

theorem fmtInteger_eq_toString (n : Int) : fmtInteger n = (toString n).data := by
  cases n with
  | ofNat m =>
    have h : ¬ (Int.ofNat m < 0) := by simp
    simp only [fmtInteger, if_neg h, Int.natAbs_ofNat, fmtDigits_eq_toDigitsCore]
    rfl
  | negSucc m =>
    have h : Int.negSucc m < 0 := Int.negSucc_lt_zero m
    simp only [fmtInteger, if_pos h, fmtDigits_eq_toDigitsCore]
    rfl

theorem Sprintf_url (h : String) (p : Int) :
    Sprintf "http://%s:%d" [.str h, .int p] = "http://" ++ h ++ ":" ++ toString p := by
  have key : (Sprintf "http://%s:%d" [.str h, .int p]).data
      = 'h' :: 't' :: 't' :: 'p' :: ':' :: '/' :: '/' :: (h.data ++ ':' :: (fmtInteger p ++ [])) :=
    rfl
  apply String.ext
  rw [key, fmtInteger_eq_toString]
  simp [String.data_append]

theorem Sprintf_listen (p : Int) :
    Sprintf ":%d" [.int p] = ":" ++ toString p := by
  have key : (Sprintf ":%d" [.int p]).data = ':' :: (fmtInteger p ++ []) := rfl
  apply String.ext
  rw [key, fmtInteger_eq_toString]
  simp [String.data_append]

/-- C3 (as stated, refuted): two starts that differ only in `-h` advertise
different addresses, yet the peer selectors they construct are equal: the
node's own address is not part of the peer selector's configuration. -/
theorem hostPicker_same_for_two_addresses :
    (main offlineEnv { init with nodeip := "10.0.0.1" }).hp
      = (main offlineEnv { init with nodeip := "10.0.0.2" }).hp ∧
    (main offlineEnv { init with nodeip := "10.0.0.1" }).serve.toOption.map
      (fun s => s.1.cfg.MyAddr) = some "http://10.0.0.1:19145" ∧
    (main offlineEnv { init with nodeip := "10.0.0.2" }).serve.toOption.map
      (fun s => s.1.cfg.MyAddr) = some "http://10.0.0.2:19145" ∧
    (main offlineEnv { init with nodeip := "10.0.0.1" }).serve.toOption.map
      (fun s => s.1.cfg.MyAddr)
      ≠ (main offlineEnv { init with nodeip := "10.0.0.2" }).serve.toOption.map
        (fun s => s.1.cfg.MyAddr) := by
  have h1 : (main offlineEnv { init with nodeip := "10.0.0.1" }).serve.toOption.map
      (fun s => s.1.cfg.MyAddr) = some "http://10.0.0.1:19145" := by decide
  have h2 : (main offlineEnv { init with nodeip := "10.0.0.2" }).serve.toOption.map
      (fun s => s.1.cfg.MyAddr) = some "http://10.0.0.2:19145" := by decide
  refine ⟨rfl, h1, h2, ?_⟩
  rw [h1, h2]
  decide

/-- C3 (amended): the peer selector that `main` constructs is configured with
the root address list, which is exactly the values given with `-r`, unchanged
and in the order given, and with the cache store; it is the same whatever the
node's own address is, given with `-h` or detected. -/
theorem hostPicker_gets_roots_and_cache (env : Env) (args : List FlagArg) (v : Vars)
    (ip : String) (now : Int) (dial : String → Except String String) :
    (main env (Parse args)).hp.rootList = args.filterMap rootValue ∧
    (main env v).hp = NewHostPicker v.root (main env v).cache ∧
    (main { env with now := now, dial := dial } { v with nodeip := ip }).hp = (main env v).hp := by
  refine ⟨?_, rfl, rfl⟩
  show (Parse args).root = _
  exact Parse_root args

/-- C4: with a non-empty `-h` value the advertised address is
`"http://" ++ h ++ ":" ++ decimal p`, the listener address is
`":" ++ decimal p`, and nothing is dialled; the detection address is dialled
exactly when `-h` is empty. -/
theorem main_advertises_given_address (env : Env) (v : Vars) :
    (v.nodeip ≠ "" →
      (main env v).serve = .ok
        (NewP2PServer
          { MyAddr := "http://" ++ v.nodeip ++ ":" ++ toString v.port
            Fs := (main env v).fs
            APIKey := "dadip2p" },
         ":" ++ toString v.port) ∧
      (main env v).dialed = []) ∧
    ((main env v).dialed ≠ [] ↔ v.nodeip = "") ∧
    ((main env v).dialed = [v.detectaddr] ↔ v.nodeip = "") := by
  refine ⟨?_, ?_, ?_⟩
  · intro h
    simp [main, h, Sprintf_url, Sprintf_listen]
  · by_cases h : v.nodeip = "" <;> simp [main, h]
  · by_cases h : v.nodeip = "" <;> simp [main, h]

/-- C4, at the address 10.0.0.1 and the default port. -/
theorem main_advertises_given_address_witness :
    (main lanEnv { init with nodeip := "10.0.0.1" }).serve = .ok
        (NewP2PServer
          { MyAddr := "http://" ++ "10.0.0.1" ++ ":" ++ toString (19145 : Int)
            Fs := (main lanEnv { init with nodeip := "10.0.0.1" }).fs
            APIKey := "dadip2p" },
         ":" ++ toString (19145 : Int)) ∧
      (main lanEnv { init with nodeip := "10.0.0.1" }).dialed = [] :=
  (main_advertises_given_address lanEnv { init with nodeip := "10.0.0.1" }).1 (by decide)

/-- C5: the credential given to the file system (for its outgoing peer
requests) is the one given to the server (for incoming requests), and it is
the same for every start, whatever the flags and surroundings. -/
theorem credential_shared_and_fixed (env env' : Env) (v v' : Vars) :
    (main env v).fs.cfg.APIKey = "dadip2p" ∧
    (∀ s, (main env v).serve = .ok s → s.1.cfg.APIKey = (main env v).fs.cfg.APIKey) ∧
    (main env' v').fs.cfg.APIKey = (main env v).fs.cfg.APIKey ∧
    (∀ s s', (main env v).serve = .ok s → (main env' v').serve = .ok s' →
      s'.1.cfg.APIKey = s.1.cfg.APIKey) := by
  have key : ∀ (e : Env) (w : Vars) s, (main e w).serve = .ok s → s.1.cfg.APIKey = "dadip2p" := by
    intro e w s hs
    simp only [main] at hs
    split at hs
    · cases hs
    · cases hs
      rfl
  exact ⟨rfl, fun s hs => key env v s hs, rfl,
    fun s s' hs hs' => (key env' v' s' hs').trans (key env v s hs).symm⟩

/-- C5, at the default start on a host with the address 192.168.1.7. -/
theorem credential_shared_and_fixed_witness :
    ∃ s, (main lanEnv init).serve = .ok s ∧
      s.1.cfg.APIKey = (main lanEnv init).fs.cfg.APIKey :=
  ⟨_, rfl, (credential_shared_and_fixed lanEnv lanEnv init init).2.1 _ rfl⟩

/-- C8: `Set` returns a nil error and appends its argument: the list becomes
`l ++ [v]`, one longer, with `l` as its first part and `v` as its last element,
for every `v` (empty or already present alike); so successive `Set` calls from
the empty list yield the values in order, duplicates kept, and that is the
root list `flag.Parse` leaves for a command line of `-r` flags. -/
theorem arrayFlags_Set_appends (l : arrayFlags) (v : String) (vs : List String) :
    (arrayFlags.Set l v).2 = none ∧
    (arrayFlags.Set l v).1 = l ++ [v] ∧
    (arrayFlags.Set l v).1.length = l.length + 1 ∧
    (arrayFlags.Set l v).1.take l.length = l ∧
    (arrayFlags.Set l v).1.getLast? = some v ∧
    vs.foldl (fun acc x => (arrayFlags.Set acc x).1) [] = vs ∧
    (Parse (vs.map FlagArg.r)).root = vs := by
  refine ⟨rfl, rfl, by simp [arrayFlags.Set], by simp [arrayFlags.Set],
    by simp [arrayFlags.Set], ?_, ?_⟩
  · have h : ∀ (acc : List String),
        vs.foldl (fun acc x => (arrayFlags.Set acc x).1) acc = acc ++ vs := by
      induction vs with
      | nil => simp
      | cons a rest ih =>
        intro acc
        rw [List.foldl_cons, ih]
        simp [arrayFlags.Set]
    simpa using h []
  · rw [Parse_root]
    induction vs with
    | nil => rfl
    | cons a rest ih => simpa [rootValue] using ih

/-- C9: with no flag at all the node is a root (empty root list, "P2P Root"),
the cache store gets `CacheSize = 8589934592`, `MaxEntry = 1073741824` and
`CacheMedia = "/tmp/cache"`, the file system 64 prefetch workers, and the
port is 19145 (the listener address `":19145"` once the own address is
detected); both size constants are what 64-bit multiplication yields, without
wrap-around, the first being beyond 32 bits and below `2^63`. -/
theorem defaults_without_flags (env : Env) :
    Parse [] = init ∧
    (Parse []).root = [] ∧
    (main env (Parse [])).logged = [(Level.InfoLevel, "P2P Root")] ∧
    (main env (Parse [])).cache.cfg.CacheSize = 8589934592 ∧
    (main env (Parse [])).cache.cfg.MaxEntry = 1073741824 ∧
    (main env (Parse [])).cache.cfg.CacheMedia = "/tmp/cache" ∧
    (main env (Parse [])).fs.cfg.PrefetchWorkers = 64 ∧
    (Parse []).port = 19145 ∧
    (main env (Parse [])).serve.toOption.map Prod.snd
      = (env.dial "8.8.8.8:80").toOption.map (fun _ => ":19145") ∧
    mulInt64 (mulInt64 (mulInt64 8 1024) 1024) 1024 = 8 * 1024 * 1024 * 1024 ∧
    mulInt64 (mulInt64 (mulInt64 1 1024) 1024) 1024 = 1 * 1024 * 1024 * 1024 ∧
    inInt64 (Parse []).cachesize ∧ ¬ inInt32 (Parse []).cachesize ∧
    inInt64 (Parse []).maxentry := by
  have hm : (8 * 1024 * 1024 * 1024 : Int) = 8589934592 := by decide
  have he : (1 * 1024 * 1024 * 1024 : Int) = 1073741824 := by decide
  have hc := main_cache_cfg env (Parse [])
  refine ⟨rfl, rfl, rfl, by rw [hc]; exact hm, by rw [hc]; exact he, by rw [hc]; rfl, rfl, rfl,
    ?_, by decide, by decide, ?_, ?_, ?_⟩
  · show (main env init).serve.toOption.map Prod.snd = _
    simp only [main, getOutbondIP, show init.nodeip = "" from rfl,
      show init.detectaddr = "8.8.8.8:80" from rfl, if_true]
    cases env.dial "8.8.8.8:80" <;> rfl
  · show inInt64 (8 * 1024 * 1024 * 1024)
    unfold inInt64
    decide
  · show ¬ inInt32 (8 * 1024 * 1024 * 1024)
    unfold inInt32
    decide
  · show inInt64 (1 * 1024 * 1024 * 1024)
    unfold inInt64
    decide

/-- C10: whatever string `-l` carries, the level set is the parsed one when
the parser accepts the string and info otherwise, and nothing else of the
start-up (stores, selector, file system, dialling, server or fatal error)
depends on it; the five documented names select the level of that name. -/
theorem loglevel_falls_back_to_info (env : Env) (v : Vars) (s : String) :
    ((main env { v with loglevel := s }).level =
      match ParseLevel env.lowerTable s with
      | .ok l => l
      | .error _ => Level.InfoLevel) ∧
    ((main env { v with loglevel := s }).serve = (main env v).serve ∧
      (main env { v with loglevel := s }).cache = (main env v).cache ∧
      (main env { v with loglevel := s }).hp = (main env v).hp ∧
      (main env { v with loglevel := s }).fs = (main env v).fs ∧
      (main env { v with loglevel := s }).dialed = (main env v).dialed) ∧
    (ParseLevel env.lowerTable "debug" = .ok .DebugLevel ∧
      ParseLevel env.lowerTable "info" = .ok .InfoLevel ∧
      ParseLevel env.lowerTable "warn" = .ok .WarnLevel ∧
      ParseLevel env.lowerTable "error" = .ok .ErrorLevel ∧
      ParseLevel env.lowerTable "panic" = .ok .PanicLevel) ∧
    ((main env { v with loglevel := "debug" }).level = .DebugLevel ∧
      (main env { v with loglevel := "info" }).level = .InfoLevel ∧
      (main env { v with loglevel := "warn" }).level = .WarnLevel ∧
      (main env { v with loglevel := "error" }).level = .ErrorLevel ∧
      (main env { v with loglevel := "panic" }).level = .PanicLevel) :=
  ⟨rfl, ⟨rfl, rfl, rfl, rfl, rfl⟩, ⟨rfl, rfl, rfl, rfl, rfl⟩, ⟨rfl, rfl, rfl, rfl, rfl⟩⟩

/-- The eviction example of the design document: with `CacheSize = 100` and
`MaxEntry = 2`, putting 60 bytes under `A` and then 50 bytes under `B` evicts
`A`; afterwards `A` misses, `B` hits and 50 bytes are in use. -/
theorem put_example_evicts_older :
    (totalBytes (runPuts (NewCachePool { MaxEntry := 2, CacheSize := 100, CacheMedia := "/m" } [])
        [(⟨"A", 0⟩, List.replicate 60 0), (⟨"B", 0⟩, List.replicate 50 0)]).entries = 50) ∧
    ((runPuts (NewCachePool { MaxEntry := 2, CacheSize := 100, CacheMedia := "/m" } [])
        [(⟨"A", 0⟩, List.replicate 60 0), (⟨"B", 0⟩, List.replicate 50 0)]).get ⟨"A", 0⟩).2
      = none ∧
    ((runPuts (NewCachePool { MaxEntry := 2, CacheSize := 100, CacheMedia := "/m" } [])
        [(⟨"A", 0⟩, List.replicate 60 0), (⟨"B", 0⟩, List.replicate 50 0)]).get ⟨"B", 0⟩).2
      = some (List.replicate 50 0) := by
  decide

end Dadip2p
